import Mathlib

/-!
Verification development for the `egent` repository (`src/azure_utils.py`).

We shallowly embed the data model and the operations that the claims
C1..C10 are about:

* Python dicts parsed from JSON blobs are association lists
  (`List (String × JValue)`) that preserve insertion order, with `get`,
  `set` (replace-in-place-or-append) and membership mirroring Python
  semantics.
* The Azure blob container backing `BlobStorageAgentManager` and
  `BlobStorageUserManager` is a map from blob name to a blob value whose
  read behaviour is one of: downloads and parses to a dict, raises a
  network error on download, or fails JSON parsing.
* The citation post-processing (`_process_document_references` methods 2-4,
  `_get_filename_by_index`, `_merge_fragmented_references`) is embedded as
  character-list scanners that mirror the relevant `re.sub` / `re.finditer`
  behaviour of the Python code; scanners carry a fuel argument equal to the
  input length, which suffices because every successful match consumes at
  least one character.
-/

set_option maxRecDepth 200000

set_option maxHeartbeats 2000000

namespace Egent

/-! ## JSON values and Python dicts -/

/-- JSON values as stored in the agent / user blobs. -/
inductive JValue where
  | jstr (s : String)
  | jbool (b : Bool)
  | jnum (n : Int)
  | jnull
  | jlist (vs : List JValue)
  | jobj (kvs : List (String × JValue))

/-- A Python dict parsed from JSON: insertion-ordered association list. -/
abbrev Dict := List (String × JValue)

/-- `d.get(k)` on a Python dict: value of the first (only) binding of `k`. -/
def aget {α : Type} (l : List (String × α)) (k : String) : Option α :=
  (l.find? (fun p => p.1 == k)).map (fun p => p.2)

/-- `d[k] = v` on a Python dict: replace the value in place if `k` is
already a key (keeping its position), otherwise append the binding. -/
def aset {α : Type} : List (String × α) → String → α → List (String × α)
  | [], k, v => [(k, v)]
  | (k', v') :: rest, k, v =>
      if k' == k then (k', v) :: rest else (k', v') :: aset rest k v

/-- Deleting a blob named `k` from a container. -/
def aremove {α : Type} (l : List (String × α)) (k : String) : List (String × α) :=
  l.filter (fun p => p.1 != k)

def dget (d : Dict) (k : String) : Option JValue := aget d k

def dset (d : Dict) (k : String) (v : JValue) : Dict := aset d k v

/-- `k in d` for a Python dict. -/
def dhas (d : Dict) (k : String) : Bool := (dget d k).isSome

/-- `d.get(k, default)`. -/
def dgetD (d : Dict) (k : String) (dflt : JValue) : JValue := (dget d k).getD dflt

/-- Python truthiness of a JSON value. -/
def truthy : JValue → Bool
  | .jstr s => !(s == "")
  | .jbool b => b
  | .jnum n => !(n == 0)
  | .jnull => false
  | .jlist vs => !vs.isEmpty
  | .jobj kvs => !kvs.isEmpty

/-- Python `v == s` for a string literal `s`: true only on equal strings. -/
def jvEqStr (v : JValue) (s : String) : Bool :=
  match v with
  | .jstr t => t == s
  | _ => false

/-- Python `f"{v}"` for the scalar values that actually occur as agent ids
and similar fields (strings, numbers, booleans, None); composite values are
rendered approximately and are not exercised by any claim. -/
def pyStr : JValue → String
  | .jstr s => s
  | .jnum n => toString n
  | .jbool true => "True"
  | .jbool false => "False"
  | .jnull => "None"
  | .jlist _ => "[...]"
  | .jobj _ => "..."

/-! ## Blob container model -/

/-- Behaviour of one stored blob when read: it downloads and JSON-parses to
a dict, the download raises a network error, or `json.loads` raises. -/
inductive BlobVal where
  | ok (d : Dict)
  | netError
  | malformed

/-- A blob container: blob name to blob. A name absent from the list is a
blob that does not exist (download raises `ResourceNotFoundError`). -/
abbrev BStore := List (String × BlobVal)

/-! ## Character-list string utilities mirroring the Python operations -/

/-- `str.strip()` restricted to ASCII whitespace. -/
def pyStripL (l : List Char) : List Char :=
  ((l.dropWhile Char.isWhitespace).reverse.dropWhile Char.isWhitespace).reverse

/-- `str.strip()` on a string. -/
def pyStrip (s : String) : String := String.mk (pyStripL s.data)

/-- Substring containment, `needle in hay` on Python strings. -/
def lcontains (needle : List Char) : List Char → Bool
  | [] => needle.isEmpty
  | c :: rest => needle.isPrefixOf (c :: rest) || lcontains needle rest

/-- `str.upper()` for ASCII plus the Turkish letters appearing in the
merge heuristics of `_merge_fragmented_references`. -/
def pyUpperChar (c : Char) : Char :=
  if c = 'ç' then 'Ç'
  else if c = 'ö' then 'Ö'
  else if c = 'ü' then 'Ü'
  else if c = 'ğ' then 'Ğ'
  else if c = 'ş' then 'Ş'
  else if c = 'ı' then 'I'
  else c.toUpper

def pyUpperL (l : List Char) : List Char := l.map pyUpperChar

/-- One step of `str.replace(old, new)` (all occurrences, left to right),
with fuel; fuel = input length suffices for non-empty `old`. -/
def replaceAllF (old new : List Char) : Nat → List Char → List Char
  | 0, s => s
  | _ + 1, [] => []
  | fuel + 1, c :: rest =>
      if old.isPrefixOf (c :: rest) then
        new ++ replaceAllF old new fuel ((c :: rest).drop old.length)
      else
        c :: replaceAllF old new fuel rest

/-- Python `s.replace(old, new)` on strings. -/
def pyReplaceAll (s old new : String) : String :=
  String.mk (replaceAllF old.data new.data s.data.length s.data)

/-- Python `s.replace(old, new, 1)`: replace the first occurrence only. -/
def replaceFirstF (old new : List Char) : Nat → List Char → List Char
  | 0, s => s
  | _ + 1, [] => []
  | fuel + 1, c :: rest =>
      if old.isPrefixOf (c :: rest) then new ++ (c :: rest).drop old.length
      else c :: replaceFirstF old new fuel rest

def replaceFirst (t old new : List Char) : List Char :=
  replaceFirstF old new t.length t

/-- `os.path.basename` for POSIX paths: the part after the last slash. -/
def basename (s : String) : String :=
  String.mk ((s.data.reverse.takeWhile (fun c => c != '/')).reverse)

/-- The slice `t[i:j]` of a Python string. -/
def sliceL (t : List Char) (i j : Nat) : List Char := (t.take j).drop i

/-- `lit` matched at the start of `s`: returns the rest after it. -/
def dropLit (lit s : List Char) : Option (List Char) :=
  if lit.isPrefixOf s then some (s.drop lit.length) else none

/-! ## json.dumps with indent=2 -/

/-- JSON string escaping as done by `json.dumps` with `ensure_ascii=True`:
quotes, backslashes, control characters, and all non-ASCII characters are
escaped (astral characters as surrogate pairs). -/
def jsonEscapeChar (c : Char) : List Char :=
  if c = '"' then ['\\', '"']
  else if c = '\\' then ['\\', '\\']
  else if c = '\n' then ['\\', 'n']
  else if c = '\t' then ['\\', 't']
  else if c = '\r' then ['\\', 'r']
  else if c.toNat < 0x20 ∨ 0x7f ≤ c.toNat then
    let hex4 (n : Nat) : List Char :=
      (Nat.toDigits 16 n).reverse.takeD 4 '0' |>.reverse
    if c.toNat ≤ 0xffff then '\\' :: 'u' :: hex4 c.toNat
    else
      let v := c.toNat - 0x10000
      ('\\' :: 'u' :: hex4 (0xd800 + v / 0x400)) ++
      ('\\' :: 'u' :: hex4 (0xdc00 + v % 0x400))
  else [c]

def jsonEscape (s : String) : String :=
  String.mk (s.data.flatMap jsonEscapeChar)

def indentStr (lvl : Nat) : String := String.mk (List.replicate (2 * lvl) ' ')

/-- `json.dumps(v, indent=2)` rendering at nesting level `lvl`, with fuel
bounding the nesting depth (1000 in the wrapper, far beyond any stored
configuration). -/
def dumpsJVF : Nat → Nat → JValue → String
  | 0, _, _ => ""
  | fuel + 1, lvl, v =>
    match v with
    | .jstr s => "\"" ++ jsonEscape s ++ "\""
    | .jbool true => "true"
    | .jbool false => "false"
    | .jnull => "null"
    | .jnum n => toString n
    | .jlist [] => "[]"
    | .jlist vs =>
        "[\n" ++
        String.intercalate ",\n"
          (vs.map (fun x => indentStr (lvl + 1) ++ dumpsJVF fuel (lvl + 1) x)) ++
        "\n" ++ indentStr lvl ++ "]"
    | .jobj [] => "\x7b\x7d"
    | .jobj kvs =>
        "\x7b\n" ++
        String.intercalate ",\n"
          (kvs.map (fun kv =>
            indentStr (lvl + 1) ++ "\"" ++ jsonEscape kv.1 ++ "\": " ++
              dumpsJVF fuel (lvl + 1) kv.2)) ++
        "\n" ++ indentStr lvl ++ "\x7d"

/-- `json.dumps(d, indent=2)` for a top-level dict. -/
def jsonDumps (d : Dict) : String := dumpsJVF 1000 0 (.jobj d)

/-- The stored dict with its `created_at` / `updated_at` fields excluded
(order of all other bindings preserved). -/
def exclTs (d : Dict) : Dict :=
  d.filter (fun kv => kv.1 != "created_at" && kv.1 != "updated_at")

/-! ## BlobStorageAgentManager -/

/-- `BlobStorageAgentManager.get_agent`: download `{agent_id}.json` and
parse it; any exception (missing blob, network failure, malformed JSON)
is swallowed and yields `None`. -/
def get_agent (s : BStore) (agent_id : String) : Option Dict :=
  match aget s (agent_id ++ ".json") with
  | some (.ok d) => some d
  | some .netError => none
  | some .malformed => none
  | none => none

/-- `if key not in d: d[key] = v`, the default-injection statement used by
`add_agent` for `status` and `enabled`. -/
def withDefault (d : Dict) (key : String) (v : JValue) : Dict :=
  if dhas d key then d else dset d key v

/-- `BlobStorageAgentManager.add_agent`: requires a truthy `id`, injects
`created_at` / `updated_at` timestamps (two separate `datetime.now()`
calls, modelled as `t1`, `t2`), defaults `status` to `"active"` and
`enabled` to `True` when absent, and uploads the JSON blob with
`overwrite=True`. -/
def add_agent (s : BStore) (t1 t2 : String) (agent_config : Dict) : BStore × Bool :=
  let idv := (dget agent_config "id").getD .jnull
  if truthy idv = false then (s, false)
  else
    let agent_id := pyStr idv
    let c1 := dset agent_config "created_at" (.jstr t1)
    let c2 := dset c1 "updated_at" (.jstr t2)
    let c3 := withDefault c2 "status" (.jstr "active")
    let c4 := withDefault c3 "enabled" (.jbool true)
    (aset s (agent_id ++ ".json") (.ok c4), true)

/-- `BlobStorageAgentManager.update_agent`: copies `created_at` from the
existing blob when that blob downloads to a truthy (non-empty) dict, sets
`updated_at` to the current time and `id` to `agent_id`, and uploads the
mutated payload; returns the mutated payload dict as well, since Python
mutates the caller's dict in place. -/
def update_agent (s : BStore) (now agent_id : String) (agent_config : Dict) :
    BStore × Dict × Bool :=
  let cfg1 :=
    match get_agent s agent_id with
    | some existing =>
        if existing.isEmpty then agent_config
        else dset agent_config "created_at" ((dget existing "created_at").getD .jnull)
    | none => agent_config
  let cfg2 := dset cfg1 "updated_at" (.jstr now)
  let cfg3 := dset cfg2 "id" (.jstr agent_id)
  (aset s (agent_id ++ ".json") (.ok cfg3), cfg3, true)

/-- `BlobStorageAgentManager.delete_agent`: `delete_blob` succeeds when the
blob exists, otherwise raises (swallowed, returning `False`). -/
def delete_agent (s : BStore) (agent_id : String) : BStore × Bool :=
  match aget s (agent_id ++ ".json") with
  | some _ => (aremove s (agent_id ++ ".json"), true)
  | none => (s, false)

/-- Loop body of `BlobStorageAgentManager.get_all_agents`: for every blob
whose name ends in `.json`, strip the `.json` occurrences to get the agent
id, re-fetch it with `get_agent`, and keep it when the result is truthy. -/
def collectAgents (s : BStore) : List (String × BlobVal) →
    List (String × Dict) → List (String × Dict)
  | [], acc => acc
  | (name, _) :: rest, acc =>
      if (".json".data).isSuffixOf name.data then
        let agent_id := pyReplaceAll name ".json" ""
        match get_agent s agent_id with
        | some d =>
            if d.isEmpty then collectAgents s rest acc
            else collectAgents s rest (aset acc agent_id d)
        | none => collectAgents s rest acc
      else collectAgents s rest acc

def get_all_agents (s : BStore) : List (String × Dict) := collectAgents s s []

/-- The filter of `get_active_agents`: status equal to `"active"`, or a
truthy `enabled` (defaulting to `True` when absent), or no `status` key. -/
def isActiveCfg (agent_config : Dict) : Bool :=
  (match dget agent_config "status" with
   | some v => jvEqStr v "active"
   | none => false) ||
  truthy (dgetD agent_config "enabled" (.jbool true)) ||
  !(dhas agent_config "status")

/-- `BlobStorageAgentManager.get_active_agents`. -/
def get_active_agents (s : BStore) : List (String × Dict) :=
  (get_all_agents s).filter (fun p => isActiveCfg p.2)

/-! ## BlobStorageUserManager -/

/-- `BlobStorageUserManager.get_user`: same shape as `get_agent`. -/
def get_user (s : BStore) (username : String) : Option Dict :=
  match aget s (username ++ ".json") with
  | some (.ok d) => some d
  | some .netError => none
  | some .malformed => none
  | none => none

/-- `BlobStorageUserManager.get_user_permissions`: the pair
`(permissions, role)`, defaulting to `([], "user")` for a truthy user dict
and `([], "guest")` otherwise. -/
def get_user_permissions (s : BStore) (username : String) : JValue × JValue :=
  match get_user s username with
  | some d =>
      if d.isEmpty then (.jlist [], .jstr "guest")
      else (dgetD d "permissions" (.jlist []), dgetD d "role" (.jstr "user"))
  | none => (.jlist [], .jstr "guest")

/-- Python `"all" in permissions`: element equality on lists, key lookup on
dicts, substring on strings; `none` models the `TypeError` raised on other
values (caught by the enclosing `except`, yielding `False`). -/
def pyInAll : JValue → Option Bool
  | .jlist vs => some (vs.any (fun x => jvEqStr x "all"))
  | .jobj kvs => some (kvs.any (fun kv => kv.1 == "all"))
  | .jstr s => some (lcontains ("all".data) s.data)
  | _ => none

/-- `BlobStorageUserManager.has_permission`. -/
def has_permission (s : BStore) (username agent_id permission_type : String) : Bool :=
  if username == "" || agent_id == "" then false
  else
    let up := get_user_permissions s username
    let permissions := up.1
    let role := up.2
    if jvEqStr role "admin" then true
    else
      match pyInAll permissions with
      | none => false
      | some true => true
      | some false =>
        match permissions with
        | .jobj kvs =>
            match dget kvs agent_id with
            | some (.jobj agent_perms) =>
                truthy ((dget agent_perms permission_type).getD (.jbool false))
            | _ => false
        | .jlist ps =>
            if ps.any (fun x => jvEqStr x permission_type) then true
            else ps.any (fun x => jvEqStr x (agent_id ++ ":" ++ permission_type))
        | _ => false

/-- Loop body of `BlobStorageUserManager.get_all_users`: like
`get_all_agents` but drops the `password_hash` key of every user dict. -/
def collectUsers (s : BStore) : List (String × BlobVal) →
    List (String × Dict) → List (String × Dict)
  | [], acc => acc
  | (name, _) :: rest, acc =>
      if (".json".data).isSuffixOf name.data then
        let username := pyReplaceAll name ".json" ""
        match get_user s username with
        | some d =>
            if d.isEmpty then collectUsers s rest acc
            else
              collectUsers s rest
                (aset acc username (d.filter (fun kv => kv.1 != "password_hash")))
        | none => collectUsers s rest acc
      else collectUsers s rest acc

def get_all_users (s : BStore) : List (String × Dict) := collectUsers s s []

/-! ## EnhancedAzureAIAgentClient.delete_document -/

/-- Events recorded while `delete_document` runs, in execution order. -/
inductive DelEvent where
  | blobDelete
  | tier1
  | tier2
  | tier3
  deriving DecidableEq

/-- Outcomes of the external calls made during one `delete_document` run:
whether `delete_blob` succeeds, and for each cleanup tier either the value
it returns (`some b`) or `none` when it raises (the exception is caught
and only logged). For tier 2, `some b` stands for a returned dict whose
`"success"` entry is `b`. -/
structure DelOutcomes where
  blobOk : Bool
  t1 : Option Bool
  t2 : Option Bool
  t3 : Option Bool

/-- Effect of one cleanup tier on the search index: a tier that reports
success removes the document's entries, any other outcome leaves the index
untouched. -/
def tierApply (idx : List String) (file_name : String) (o : Option Bool) : List String :=
  if o = some true then idx.filter (fun f => f != file_name) else idx

/-- `EnhancedAzureAIAgentClient._standard_index_deletion`: tier 1
(`remove_document_from_index`), then tier 2
(`trigger_reindex_after_document_change`), then tier 3
(`_advanced_search_and_delete`) only if neither earlier tier succeeded;
each tier's exception is swallowed. Returns the updated index, the events,
and the `deletion_success` flag. -/
def standard_index_deletion (idx : List String) (file_name : String)
    (oc : DelOutcomes) : List String × List DelEvent × Bool :=
  let success1 := oc.t1 = some true
  let idx1 := tierApply idx file_name oc.t1
  let success2 := success1 ∨ oc.t2 = some true
  let idx2 := tierApply idx1 file_name oc.t2
  if success2 then (idx2, [.tier1, .tier2], true)
  else
    (tierApply idx2 file_name oc.t3, [.tier1, .tier2, .tier3], oc.t3 = some true)

/-- `EnhancedAzureAIAgentClient.delete_document` over a single container
(list of blob names) and a search index (list of indexed documents):
validates `index_name`, deletes the blob first, then runs the index
cleanup cascade, and returns `True` as soon as the blob deletion
succeeded, regardless of the cascade's outcome. -/
def delete_document (blobs idx : List String) (file_name : String)
    (index_name : Option String) (oc : DelOutcomes) :
    List String × List String × List DelEvent × Bool :=
  match index_name with
  | none => (blobs, idx, [], false)
  | some nm =>
    if nm == "" then (blobs, idx, [], false)
    else if pyStrip nm == "" then (blobs, idx, [], false)
    else if oc.blobOk = false then (blobs, idx, [], false)
    else
      let blobs' := blobs.filter (fun f => f != file_name)
      let r := standard_index_deletion idx file_name oc
      (blobs', r.1, .blobDelete :: r.2.1, true)

/-! ## EnhancedAzureAIAgentClient.send_message_and_get_response -/

/-- Outcome of one attempt of the `create_message` /
`create_and_process_run` / `list_messages` body: a response string, an
`AzureError`, or any other exception. -/
inductive Attempt where
  | ok (resp : String)
  | azure (e : String)
  | other (e : String)

/-- Result of the send loop: the returned string, the sleeps performed (in
seconds, in order), and the number of attempts made. -/
structure SendResult where
  result : String
  sleeps : List Nat
  attemptsMade : Nat

/-- The `for attempt in range(max_retries)` loop of
`send_message_and_get_response` with `retry_delay = 1`: an `AzureError`
sleeps `retry_delay * 2 ** attempt` seconds and retries unless this was
the last attempt, in which case an error string is returned; any other
exception propagates to the outer handler which returns an error string
without retrying. `remaining + 1` is the number of loop iterations left.
-/
def sendLoopAux (att : Nat → Attempt) (retryDelay : Nat) :
    Nat → Nat → List Nat → SendResult
  | 0, attempt, sleeps => ⟨"", sleeps.reverse, attempt⟩
  | remaining + 1, attempt, sleeps =>
    match att attempt with
    | .ok r => ⟨r, sleeps.reverse, attempt + 1⟩
    | .other e => ⟨"AI Agent genel hatası: " ++ e, sleeps.reverse, attempt + 1⟩
    | .azure e =>
      if 1 ≤ remaining then
        sendLoopAux att retryDelay remaining (attempt + 1)
          (retryDelay * 2 ^ attempt :: sleeps)
      else ⟨"AI Agent bağlantı hatası: " ++ e, sleeps.reverse, attempt + 1⟩

/-- `send_message_and_get_response` retry structure: `max_retries = 3`,
`retry_delay = 1`. -/
def send_message_and_get_response (att : Nat → Attempt) : SendResult :=
  sendLoopAux att 1 3 0 []

/-! ## Citation rewriting (methods 2-4 of _process_document_references) -/

/-- Replacement `<span class="document-reference">…</span>`. -/
def spanRef (s : String) : String :=
  "<span class=\"document-reference\">" ++ s ++ "</span>"

def digitsToNat (l : List Char) : Nat :=
  l.foldl (fun acc c => acc * 10 + (c.toNat - '0'.toNat)) 0

/-- Maximal run of ASCII digits at the start of `s` (regex `\d+`):
its value, its raw characters, and the rest. -/
def parseDigits (s : List Char) : Option (Nat × List Char × List Char) :=
  let ds := s.takeWhile Char.isDigit
  if ds.isEmpty then none else some (digitsToNat ds, ds, s.drop ds.length)

/-- Generic non-overlapping left-to-right `re.sub`: at each position try
the matcher (which returns the replacement and the rest after the match),
otherwise keep the character. Fuel = input length suffices because every
match consumes at least one character. -/
def reSub (tryM : List Char → Option (List Char × List Char)) :
    Nat → List Char → List Char
  | 0, s => s
  | _ + 1, [] => []
  | fuel + 1, c :: rest =>
    match tryM (c :: rest) with
    | some (rep, rest') => rep ++ reSub tryM fuel rest'
    | none => c :: reSub tryM fuel rest

/-- Matcher for `\[(\d+):source\]`; the replacement receives the numeric
value and the raw digit characters of the group. -/
def tryNumSource (f : Nat → List Char → String) (s : List Char) :
    Option (List Char × List Char) :=
  match s with
  | '[' :: s1 =>
    match parseDigits s1 with
    | some (n, ds, s2) =>
      match dropLit (":source]".data) s2 with
      | some s3 => some ((f n ds).data, s3)
      | none => none
    | none => none
  | _ => none

/-- Matcher for `\[doc_(\d+)\]`. -/
def tryDocN (f : Nat → List Char → String) (s : List Char) :
    Option (List Char × List Char) :=
  match dropLit ("[doc_".data) s with
  | some s1 =>
    match parseDigits s1 with
    | some (n, ds, s2) =>
      match dropLit ("]".data) s2 with
      | some s3 => some ((f n ds).data, s3)
      | none => none
    | none => none
  | none => none

/-- Matcher for `\[file_(\d+)\]`. -/
def tryFileN (f : Nat → List Char → String) (s : List Char) :
    Option (List Char × List Char) :=
  match dropLit ("[file_".data) s with
  | some s1 =>
    match parseDigits s1 with
    | some (n, ds, s2) =>
      match dropLit ("]".data) s2 with
      | some s3 => some ((f n ds).data, s3)
      | none => none
    | none => none
  | none => none

/-- Matcher for the cleanup pattern `\[source:\s*([^\]]+)\]`: after
`[source:` the greedy `\s*` takes the whitespace run, backtracking one
character when `[^\]]+` would otherwise be empty. -/
def trySourceColon (s : List Char) : Option (List Char × List Char) :=
  match dropLit ("[source:".data) s with
  | some s1 =>
    let body := s1.takeWhile (fun c => c != ']')
    let s2 := s1.drop body.length
    match dropLit ("]".data) s2 with
    | some s3 =>
      if body.isEmpty then none
      else
        let g :=
          let t := body.dropWhile Char.isWhitespace
          if t.isEmpty then body.drop (body.length - 1) else t
        some ((spanRef ("📄 " ++ String.mk (pyStripL g))).data, s3)
    | none => none
  | none => none

/-- `EnhancedAzureAIAgentClient._get_filename_by_index`: in-range indexes
map to a span with the basename of the filename, anything else to the
generic `Kaynak Dosya {index+1}` span. -/
def get_filename_by_index (filenames : List String) (i : Int) : String :=
  if 0 ≤ i ∧ i < filenames.length then
    spanRef ("📄 " ++ basename (filenames.getD i.toNat ""))
  else
    spanRef ("📄 Kaynak Dosya " ++ toString (i + 1))

/-! ## _merge_fragmented_references -/

def openSpanL : List Char := "<span class=\"document-reference\">".data

def closeSpanL : List Char := "</span>".data

/-- Match of `<span class="document-reference">([^<]*)</span>` at the
start of `s`: the captured group and the rest after the match. -/
def trySpanAt (s : List Char) : Option (List Char × List Char) :=
  if openSpanL.isPrefixOf s then
    let s1 := s.drop openSpanL.length
    let content := s1.takeWhile (fun c => c != '<')
    let s2 := s1.drop content.length
    if closeSpanL.isPrefixOf s2 then some (content, s2.drop closeSpanL.length)
    else none
  else none

/-- One `re.finditer` match of the span pattern: start offset, end offset
(both in characters, as in Python), and the captured content. -/
structure SpanM where
  st : Nat
  en : Nat
  content : List Char

/-- All non-overlapping matches of the span pattern with their positions. -/
def findSpansF : Nat → Nat → List Char → List SpanM
  | 0, _, _ => []
  | _ + 1, _, [] => []
  | fuel + 1, pos, c :: rest =>
    match trySpanAt (c :: rest) with
    | some (content, rest') =>
      let len := openSpanL.length + content.length + closeSpanL.length
      ⟨pos, pos + len, content⟩ :: findSpansF fuel (pos + len) rest'
    | none => findSpansF fuel (pos + 1) rest

def findSpans (t : List Char) : List SpanM := findSpansF t.length 0 t

/-- The icon character class `[🔗📄🗂️📋📊🎯⚙️💼📈📉📝🔍]` of the cleanup
regex; Python compiles the two emoji-with-variation-selector sequences
into their individual code points, so U+FE0F is a member. -/
def iconChars : List Char :=
  ['🔗', '📄', '🗂', '️', '📋', '📊', '🎯', '⚙', '💼', '📈', '📉', '📝', '🔍']

/-- `re.sub(r'^[icons]\s*', '', s)`: anchored, so it strips at most one
leading icon character together with the following whitespace run. -/
def stripIconL (s : List Char) : List Char :=
  match s with
  | [] => []
  | c :: rest =>
    if iconChars.contains c then rest.dropWhile Char.isWhitespace else c :: rest

/-- Filename extensions used by merge rule 2. -/
def mergeExts : List (List Char) :=
  [".docx".data, ".pdf".data, ".txt".data, ".xlsx".data]

/-- The `should_merge` decision for a consecutive pair of span matches:
rule 1 (distance at most 20 characters), rule 2 (no known extension on the
first content, an extension or a Turkish continuation word on the second),
rule 3 (the specific Turkish filename pattern). -/
def shouldMerge (a b : SpanM) : Bool :=
  let current := pyStripL a.content
  let next := pyStripL b.content
  let distance := b.st - a.en
  decide (distance ≤ 20) ||
  ((!mergeExts.any (fun e => e.isSuffixOf current)) &&
    (mergeExts.any (fun e => e.isSuffixOf next) ||
      (["SORUMLULUKLARI".data, "BELGE".data, "DOSYA".data].any
        (fun w => lcontains w (pyUpperL next))))) ||
  (lcontains ("ARAÇ".data) (pyUpperL current) &&
    lcontains ("KULLANICI".data) (pyUpperL current) &&
    lcontains ("SORUMLULUKLARI".data) (pyUpperL next))

/-- First consecutive pair of matches satisfying `should_merge` (the inner
`for i in range(len(current_matches) - 1)` with its `break`). -/
def findMergePair : List SpanM → Option (SpanM × SpanM)
  | a :: b :: rest =>
    if shouldMerge a b then some (a, b) else findMergePair (b :: rest)
  | _ => none

/-- One pass of the merge loop: re-find the spans, merge the first
mergeable consecutive pair (keeping a short non-empty inter-span text
inside the combined content), and replace the first occurrence of the old
segment; `none` when no pair merges. -/
def mergeStepOnce (t : List Char) : Option (List Char) :=
  match findMergePair (findSpans t) with
  | none => none
  | some (a, b) =>
    let current := pyStripL a.content
    let next := pyStripL b.content
    let between := pyStripL (sliceL t a.en b.st)
    let cleanCurrent := pyStripL (stripIconL current)
    let cleanNext := pyStripL (stripIconL next)
    let combined :=
      if !between.isEmpty ∧ between.length ≤ 10 then
        ("📄 ".data) ++ cleanCurrent ++ [' '] ++ between ++ [' '] ++ cleanNext
      else ("📄 ".data) ++ cleanCurrent ++ [' '] ++ cleanNext
    let oldSeg := sliceL t a.st b.en
    let newSeg := openSpanL ++ combined ++ closeSpanL
    some (replaceFirst t oldSeg newSeg)

/-- The `while changes_made and iteration < max_iterations` loop: at most
10 passes, stopping early when a pass makes no change. -/
def mergeLoop : Nat → List Char → List Char
  | 0, t => t
  | fuel + 1, t =>
    match mergeStepOnce t with
    | some t' => mergeLoop fuel t'
    | none => t

/-- Matcher for the final pattern
`(<span…>([^<]*)</span>)\s*(<span…>([^<]*)</span>)`, replaced by one span
joining the two cleaned contents. -/
def tryFinalPair (s : List Char) : Option (List Char × List Char) :=
  match trySpanAt s with
  | none => none
  | some (c1, s1) =>
    let ws := s1.takeWhile Char.isWhitespace
    let s2 := s1.drop ws.length
    match trySpanAt s2 with
    | none => none
    | some (c2, s3) =>
      let cleanFirst := pyStripL (stripIconL (pyStripL c1))
      let cleanSecond := pyStripL (stripIconL (pyStripL c2))
      some (openSpanL ++ ("📄 ".data) ++ cleanFirst ++ [' '] ++ cleanSecond ++
        closeSpanL, s3)

/-- `EnhancedAzureAIAgentClient._merge_fragmented_references`: returns the
text unchanged when at most one span is present; otherwise runs the merge
loop followed by the final pairwise pass. -/
def merge_fragmented_references (t : List Char) : List Char :=
  if (findSpans t).length ≤ 1 then t
  else
    let m := mergeLoop 10 t
    reSub tryFinalPair m.length m

/-- Methods 2-4 of `EnhancedAzureAIAgentClient._process_document_references`
given the values of the file-ID-to-filename mapping: the three legacy
citation patterns (mapped through `_get_filename_by_index` when the
mapping is non-empty, with generic Turkish fallbacks otherwise), the
`[source: …]` cleanup pattern, and the fragment merge. -/
def process_document_references (filenames : List String) (text : String) : String :=
  let t0 := text.data
  let t1 :=
    if !filenames.isEmpty then
      let s1 := reSub
        (tryNumSource (fun n _ => get_filename_by_index filenames (Int.ofNat n)))
        t0.length t0
      let s2 := reSub
        (tryDocN (fun n _ => get_filename_by_index filenames (Int.ofNat n - 1)))
        s1.length s1
      reSub
        (tryFileN (fun n _ => get_filename_by_index filenames (Int.ofNat n - 1)))
        s2.length s2
    else
      let s1 := reSub
        (tryNumSource (fun n _ => spanRef ("📄 Kaynak Dosya " ++ toString (n + 1))))
        t0.length t0
      let s2 := reSub
        (tryDocN (fun _ ds => spanRef ("📄 Belge " ++ String.mk ds)))
        s1.length s1
      reSub
        (tryFileN (fun _ ds => spanRef ("📄 Dosya " ++ String.mk ds)))
        s2.length s2
  let t2 := reSub trySourceColon t1.length t1
  String.mk (merge_fragmented_references t2)

/-! ## Helper lemmas about the dict / store operations -/

theorem aget_aset_self {α : Type} (l : List (String × α)) (k : String) (v : α) :
    aget (aset l k v) k = some v := by
  induction l with
  | nil => simp [aset, aget]
  | cons hd tl ih =>
    obtain ⟨k', v'⟩ := hd
    by_cases h : k' = k
    · simp [aset, aget, h]
    · simp only [aset, beq_eq_false_iff_ne.mpr h, if_neg]
      simpa [aget, List.find?, beq_eq_false_iff_ne.mpr h] using ih

theorem aget_aset_ne {α : Type} (l : List (String × α)) (k k' : String) (v : α)
    (h : k' ≠ k) : aget (aset l k v) k' = aget l k' := by
  have hb : (k == k') = false := beq_eq_false_iff_ne.mpr (Ne.symm h)
  induction l with
  | nil => simp [aset, aget, List.find?, hb]
  | cons hd tl ih =>
    obtain ⟨k₀, v₀⟩ := hd
    by_cases h0 : k₀ = k
    · subst h0
      simp [aset, aget, List.find?, hb]
    · have hb0 : (k₀ == k) = false := beq_eq_false_iff_ne.mpr h0
      by_cases h1 : k₀ = k'
      · simp [aset, aget, List.find?, hb0, h1, h]
      · have hb1 : (k₀ == k') = false := beq_eq_false_iff_ne.mpr h1
        simpa [aset, aget, List.find?, hb0, hb1] using ih

theorem aget_aremove_self {α : Type} (l : List (String × α)) (k : String) :
    aget (aremove l k) k = none := by
  unfold aget aremove
  rw [List.find?_eq_none.mpr]
  · rfl
  · intro x hx hbeq
    have hne := (List.mem_filter.mp hx).2
    simp only [bne_iff_ne, ne_eq] at hne
    exact hne (by simpa using hbeq)

theorem mem_aset {α : Type} (l : List (String × α)) (k : String) (v : α)
    (x : String × α) (hx : x ∈ aset l k v) : x ∈ l ∨ x = (k, v) := by
  induction l with
  | nil => simpa [aset] using hx
  | cons hd tl ih =>
    obtain ⟨k', v'⟩ := hd
    by_cases h : k' = k
    · subst h
      rw [aset, if_pos (by simp)] at hx
      rcases List.mem_cons.mp hx with h1 | h1
      · exact Or.inr h1
      · exact Or.inl (List.mem_cons_of_mem _ h1)
    · rw [aset, if_neg (by simpa using h)] at hx
      rcases List.mem_cons.mp hx with h1 | h1
      · exact Or.inl (h1 ▸ List.mem_cons_self _ _)
      · rcases ih h1 with h2 | h2
        · exact Or.inl (List.mem_cons_of_mem _ h2)
        · exact Or.inr h2

theorem dget_dset_self (d : Dict) (k : String) (v : JValue) :
    dget (dset d k v) k = some v := aget_aset_self d k v

theorem dget_dset_ne (d : Dict) (k k' : String) (v : JValue) (h : k' ≠ k) :
    dget (dset d k v) k' = dget d k' := aget_aset_ne d k k' v h

theorem dset_eq_of_dget (d : Dict) (k : String) (v : JValue)
    (h : dget d k = some v) : dset d k v = d := by
  induction d with
  | nil => simp [dget, aget] at h
  | cons hd tl ih =>
    obtain ⟨k', v'⟩ := hd
    by_cases h0 : k' = k
    · have : v' = v := by
        simpa [dget, aget, List.find?, h0] using h
      simp [dset, aset, h0, this]
    · have hb : (k' == k) = false := beq_eq_false_iff_ne.mpr h0
      have htl : dget tl k = some v := by
        simpa [dget, aget, List.find?, hb] using h
      have h2 : aset tl k v = tl := ih htl
      simp [dset, aset, hb, h2]

theorem dset_isEmpty (d : Dict) (k : String) (v : JValue) :
    (dset d k v).isEmpty = false := by
  cases d with
  | nil => rfl
  | cons hd tl =>
    obtain ⟨k', v'⟩ := hd
    by_cases h : k' = k <;> simp [dset, aset, h]

theorem isEmpty_false_of_dget (d : Dict) (k : String) (v : JValue)
    (h : dget d k = some v) : d.isEmpty = false := by
  cases d with
  | nil => simp [dget, aget] at h
  | cons hd tl => rfl

theorem dhas_dset_ne (d : Dict) (k k' : String) (v : JValue) (h : k' ≠ k) :
    dhas (dset d k v) k' = dhas d k' := by
  rw [dhas, dget_dset_ne d k k' v h, dhas]

theorem exclTs_dset (d : Dict) (k : String) (v : JValue)
    (hk : k = "created_at" ∨ k = "updated_at") :
    exclTs (dset d k v) = exclTs d := by
  have hfalse : (k != "created_at" && k != "updated_at") = false := by
    rcases hk with h | h <;> subst h <;> rfl
  induction d with
  | nil => simp [dset, aset, exclTs, List.filter, hfalse]
  | cons hd tl ih =>
    obtain ⟨k', v'⟩ := hd
    by_cases h0 : k' = k
    · subst h0
      rw [dset, aset, if_pos (by simp)]
      simp [exclTs, List.filter, hfalse]
    · rw [dset, aset, if_neg (by simpa using h0)]
      simp only [exclTs, List.filter] at ih ⊢
      cases hcond : (k' != "created_at" && k' != "updated_at") <;>
        simpa [hcond] using ih

theorem dget_withDefault_ne (d : Dict) (key : String) (v : JValue) (k : String)
    (hk : k ≠ key) : dget (withDefault d key v) k = dget d k := by
  unfold withDefault
  by_cases h : dhas d key <;> simp [h, dget_dset_ne _ _ _ _ hk]

theorem dget_withDefault_present (d : Dict) (key : String) (v : JValue)
    (h : dhas d key = true) : dget (withDefault d key v) key = dget d key := by
  unfold withDefault
  rw [if_pos h]

theorem dget_withDefault_absent (d : Dict) (key : String) (v : JValue)
    (h : dhas d key = false) : dget (withDefault d key v) key = some v := by
  unfold withDefault
  rw [if_neg (by simp [h]), dget_dset_self]

theorem dhas_withDefault_ne (d : Dict) (key : String) (v : JValue) (k : String)
    (hk : k ≠ key) : dhas (withDefault d key v) k = dhas d k := by
  rw [dhas, dget_withDefault_ne d key v k hk, dhas]

/-! ## Claim C7 -/

/-- Helper for C7: the effect of the second `update_agent` call, given
only that the payload is the blob stored by the first call, that it is
non-empty, and that its `id` field already holds `agent_id`. -/
theorem c7_second_call (s0 : BStore) (t2 agent_id : String) (c1 : Dict)
    (hne : c1.isEmpty = false)
    (hid : dget c1 "id" = some (.jstr agent_id)) :
    ∃ b2, aget (update_agent (aset s0 (agent_id ++ ".json") (.ok c1)) t2 agent_id c1).1
        (agent_id ++ ".json") = some (.ok b2) ∧ exclTs b2 = exclTs c1 := by
  have hg2 : get_agent (aset s0 (agent_id ++ ".json") (.ok c1)) agent_id = some c1 := by
    simp [get_agent, aget_aset_self]
  refine ⟨dset (dset (dset c1 "created_at" ((dget c1 "created_at").getD .jnull))
      "updated_at" (.jstr t2)) "id" (.jstr agent_id), ?_, ?_⟩
  · have h2 : (update_agent (aset s0 (agent_id ++ ".json") (.ok c1)) t2 agent_id c1).1 =
        aset (aset s0 (agent_id ++ ".json") (.ok c1)) (agent_id ++ ".json")
          (.ok (dset (dset (dset c1 "created_at" ((dget c1 "created_at").getD .jnull))
            "updated_at" (.jstr t2)) "id" (.jstr agent_id))) := by
      simp only [update_agent, hg2, hne]
      rfl
    rw [h2, aget_aset_self]
  · have hid2 : dget (dset (dset c1 "created_at" ((dget c1 "created_at").getD .jnull))
        "updated_at" (.jstr t2)) "id" = some (.jstr agent_id) := by
      rw [dget_dset_ne _ _ _ _ (by decide), dget_dset_ne _ _ _ _ (by decide), hid]
    rw [dset_eq_of_dget _ _ _ hid2, exclTs_dset _ _ _ (Or.inr rfl),
      exclTs_dset _ _ _ (Or.inl rfl)]

/-- C7: calling `update_agent` twice in succession with the same (mutated)
payload dict stores, on the second call, a blob whose association list —
and hence whose `json.dumps(…, indent=2)` serialization — is identical to
the first call's blob once the `created_at` / `updated_at` fields are
excluded: key order, the injected `id`, and all other fields reproduce. -/
theorem c7_update_reserialization (s : BStore) (t1 t2 agent_id : String) (cfg : Dict) :
    ∃ b1 b2 : Dict,
      aget (update_agent s t1 agent_id cfg).1 (agent_id ++ ".json") = some (.ok b1) ∧
      aget (update_agent (update_agent s t1 agent_id cfg).1 t2 agent_id
          (update_agent s t1 agent_id cfg).2.1).1 (agent_id ++ ".json") = some (.ok b2) ∧
      exclTs b2 = exclTs b1 ∧
      jsonDumps (exclTs b2) = jsonDumps (exclTs b1) := by
  have hshape : ∃ cfgA, update_agent s t1 agent_id cfg =
      (aset s (agent_id ++ ".json")
        (.ok (dset (dset cfgA "updated_at" (.jstr t1)) "id" (.jstr agent_id))),
       dset (dset cfgA "updated_at" (.jstr t1)) "id" (.jstr agent_id), true) := by
    cases hga : get_agent s agent_id with
    | none => exact ⟨cfg, by simp only [update_agent, hga]⟩
    | some ex =>
      cases he : ex.isEmpty with
      | true => exact ⟨cfg, by simp only [update_agent, hga, he, if_true]⟩
      | false =>
        exact ⟨dset cfg "created_at" ((dget ex "created_at").getD .jnull),
          by simp only [update_agent, hga, he, Bool.false_eq_true, if_false]⟩
  obtain ⟨cfgA, hA⟩ := hshape
  obtain ⟨b2, hb2, hexcl⟩ := c7_second_call s t2 agent_id
    (dset (dset cfgA "updated_at" (.jstr t1)) "id" (.jstr agent_id))
    (dset_isEmpty _ _ _) (dget_dset_self _ _ _)
  refine ⟨dset (dset cfgA "updated_at" (.jstr t1)) "id" (.jstr agent_id), b2,
    ?_, ?_, hexcl, congrArg jsonDumps hexcl⟩
  · rw [hA]
    exact aget_aset_self _ _ _
  · rw [hA]
    exact hb2

/-! ## Claim C4 -/

/-- C4: blob-store round-trip. For any agent config whose `id` is a
non-empty string `x`, `add_agent` succeeds and `get_agent x` returns the
input dict plus injected `created_at` / `updated_at` timestamps, a default
`status` of `"active"` when absent, a default `enabled` of `True` when
absent, and every other key unchanged; after `delete_agent x`,
`get_agent x` returns `None`. -/
theorem c4_blob_roundtrip (s : BStore) (t1 t2 : String) (cfg : Dict) (x : String)
    (hid : dget cfg "id" = some (.jstr x)) (hx : x ≠ "") :
    (add_agent s t1 t2 cfg).2 = true ∧
    ∃ d : Dict, get_agent (add_agent s t1 t2 cfg).1 x = some d ∧
      dget d "created_at" = some (.jstr t1) ∧
      dget d "updated_at" = some (.jstr t2) ∧
      (dhas cfg "status" = true → dget d "status" = dget cfg "status") ∧
      (dhas cfg "status" = false → dget d "status" = some (.jstr "active")) ∧
      (dhas cfg "enabled" = true → dget d "enabled" = dget cfg "enabled") ∧
      (dhas cfg "enabled" = false → dget d "enabled" = some (.jbool true)) ∧
      (∀ k, k ≠ "created_at" → k ≠ "updated_at" → k ≠ "status" → k ≠ "enabled" →
        dget d k = dget cfg k) ∧
      (delete_agent (add_agent s t1 t2 cfg).1 x).2 = true ∧
      get_agent (delete_agent (add_agent s t1 t2 cfg).1 x).1 x = none := by
  have hadd : add_agent s t1 t2 cfg =
      (aset s (x ++ ".json") (.ok (withDefault (withDefault
        (dset (dset cfg "created_at" (.jstr t1)) "updated_at" (.jstr t2))
        "status" (.jstr "active")) "enabled" (.jbool true))), true) := by
    simp only [add_agent, hid, Option.getD_some]
    rw [if_neg (by simp [truthy, hx])]
    rfl
  have hS : dhas (dset (dset cfg "created_at" (.jstr t1)) "updated_at" (.jstr t2))
      "status" = dhas cfg "status" := by
    rw [dhas_dset_ne _ _ _ _ (by decide), dhas_dset_ne _ _ _ _ (by decide)]
  have hE : dhas (withDefault
      (dset (dset cfg "created_at" (.jstr t1)) "updated_at" (.jstr t2))
      "status" (.jstr "active")) "enabled" = dhas cfg "enabled" := by
    rw [dhas_withDefault_ne _ _ _ _ (by decide),
      dhas_dset_ne _ _ _ _ (by decide), dhas_dset_ne _ _ _ _ (by decide)]
  refine ⟨by rw [hadd], withDefault (withDefault
      (dset (dset cfg "created_at" (.jstr t1)) "updated_at" (.jstr t2))
      "status" (.jstr "active")) "enabled" (.jbool true),
    ?_, ?_, ?_, ?_, ?_, ?_, ?_, ?_, ?_, ?_⟩
  · rw [hadd]
    simp [get_agent, aget_aset_self]
  · rw [dget_withDefault_ne _ _ _ _ (by decide), dget_withDefault_ne _ _ _ _ (by decide),
      dget_dset_ne _ _ _ _ (by decide), dget_dset_self]
  · rw [dget_withDefault_ne _ _ _ _ (by decide), dget_withDefault_ne _ _ _ _ (by decide),
      dget_dset_self]
  · intro h
    have h2 : dhas (dset (dset cfg "created_at" (.jstr t1)) "updated_at" (.jstr t2))
        "status" = true := by rw [hS]; exact h
    rw [dget_withDefault_ne _ _ _ _ (by decide), dget_withDefault_present _ _ _ h2,
      dget_dset_ne _ _ _ _ (by decide), dget_dset_ne _ _ _ _ (by decide)]
  · intro h
    have h2 : dhas (dset (dset cfg "created_at" (.jstr t1)) "updated_at" (.jstr t2))
        "status" = false := by rw [hS]; exact h
    rw [dget_withDefault_ne _ _ _ _ (by decide), dget_withDefault_absent _ _ _ h2]
  · intro h
    have h2 : dhas (withDefault
        (dset (dset cfg "created_at" (.jstr t1)) "updated_at" (.jstr t2))
        "status" (.jstr "active")) "enabled" = true := by rw [hE]; exact h
    rw [dget_withDefault_present _ _ _ h2, dget_withDefault_ne _ _ _ _ (by decide),
      dget_dset_ne _ _ _ _ (by decide), dget_dset_ne _ _ _ _ (by decide)]
  · intro h
    have h2 : dhas (withDefault
        (dset (dset cfg "created_at" (.jstr t1)) "updated_at" (.jstr t2))
        "status" (.jstr "active")) "enabled" = false := by rw [hE]; exact h
    rw [dget_withDefault_absent _ _ _ h2]
  · intro k hk1 hk2 hk3 hk4
    rw [dget_withDefault_ne _ _ _ _ hk4, dget_withDefault_ne _ _ _ _ hk3,
      dget_dset_ne _ _ _ _ hk2, dget_dset_ne _ _ _ _ hk1]
  · rw [hadd]
    simp [delete_agent, aget_aset_self]
  · rw [hadd]
    simp [delete_agent, aget_aset_self, get_agent, aget_aremove_self]

/-- C4 witness: the round-trip applied to the concrete config
`[("id", "a"), ("name", "agent")]` on an empty store. -/
theorem c4_blob_roundtrip_witness :
    (add_agent [] "T1" "T2" [("id", .jstr "a"), ("name", .jstr "agent")]).2 = true ∧
    ∃ d : Dict,
      get_agent (add_agent [] "T1" "T2" [("id", .jstr "a"), ("name", .jstr "agent")]).1 "a" =
        some d ∧
      dget d "created_at" = some (.jstr "T1") ∧
      dget d "updated_at" = some (.jstr "T2") ∧
      (dhas [("id", .jstr "a"), ("name", .jstr "agent")] "status" = true →
        dget d "status" = dget [("id", .jstr "a"), ("name", .jstr "agent")] "status") ∧
      (dhas [("id", .jstr "a"), ("name", .jstr "agent")] "status" = false →
        dget d "status" = some (.jstr "active")) ∧
      (dhas [("id", .jstr "a"), ("name", .jstr "agent")] "enabled" = true →
        dget d "enabled" = dget [("id", .jstr "a"), ("name", .jstr "agent")] "enabled") ∧
      (dhas [("id", .jstr "a"), ("name", .jstr "agent")] "enabled" = false →
        dget d "enabled" = some (.jbool true)) ∧
      (∀ k, k ≠ "created_at" → k ≠ "updated_at" → k ≠ "status" → k ≠ "enabled" →
        dget d k = dget [("id", .jstr "a"), ("name", .jstr "agent")] k) ∧
      (delete_agent (add_agent [] "T1" "T2"
        [("id", .jstr "a"), ("name", .jstr "agent")]).1 "a").2 = true ∧
      get_agent (delete_agent (add_agent [] "T1" "T2"
        [("id", .jstr "a"), ("name", .jstr "agent")]).1 "a").1 "a" = none :=
  c4_blob_roundtrip [] "T1" "T2" [("id", .jstr "a"), ("name", .jstr "agent")] "a"
    rfl (by decide)

/-! ## Claim C8 -/

/-- C8: the blob-store read methods `get_agent` and `get_user` return the
same sentinel `None` whether the underlying blob download raises a network
exception, the blob does not exist, or the blob holds malformed JSON, so a
caller cannot distinguish these failure modes from the return value. -/
theorem c8_error_collapse (s : BStore) (id : String) :
    get_agent (aset s (id ++ ".json") .netError) id = none ∧
    get_agent (aset s (id ++ ".json") .malformed) id = none ∧
    get_agent (aremove s (id ++ ".json")) id = none ∧
    get_user (aset s (id ++ ".json") .netError) id = none ∧
    get_user (aset s (id ++ ".json") .malformed) id = none ∧
    get_user (aremove s (id ++ ".json")) id = none := by
  refine ⟨?_, ?_, ?_, ?_, ?_, ?_⟩ <;>
    simp [get_agent, get_user, aget_aset_self, aget_aremove_self]

/-! ## Claim C1 -/

/-- C1 counterexample: a stored user whose role is `"admin"`, yet
`has_permission` returns `False` for the pair `("", "chat")` because of the
guard on empty `agent_id` — so it is not true that an admin gets `True`
for every `(agent_id, permission_type)` pair. -/
theorem c1_admin_empty_agent_counterexample :
    has_permission [("u.json", .ok [("role", .jstr "admin")])] "u" "" "chat" = false := by
  decide

/-- C1 (amended): permission evaluation for nonempty usernames and
nonempty agent ids. A user whose stored permissions list is exactly
`["scm:chat"]` and whose role is not `"admin"` gets `True` for
`("scm", "chat")` and `False` for `("it", "chat")`; a user whose role is
`"admin"`, or whose permissions list contains `"all"`, gets `True` for
every pair with a nonempty agent id; and a permission string without an
agent prefix grants that action on every agent with a nonempty id. -/
theorem c1_permission_evaluation (s : BStore) (u : String) (d : Dict)
    (hu : u ≠ "") (hget : get_user s u = some d) :
    (dget d "permissions" = some (.jlist [.jstr "scm:chat"]) →
      jvEqStr (dgetD d "role" (.jstr "user")) "admin" = false →
      has_permission s u "scm" "chat" = true ∧
      has_permission s u "it" "chat" = false) ∧
    (∀ a p, a ≠ "" →
      jvEqStr (dgetD d "role" (.jstr "user")) "admin" = true →
      has_permission s u a p = true) ∧
    (∀ a p ps, a ≠ "" → dget d "permissions" = some (.jlist ps) →
      ps.any (fun x => jvEqStr x "all") = true →
      has_permission s u a p = true) ∧
    (∀ a p ps, a ≠ "" → dget d "permissions" = some (.jlist ps) →
      ps.any (fun x => jvEqStr x p) = true →
      has_permission s u a p = true) := by
  have hbu : (u == "") = false := beq_eq_false_iff_ne.mpr hu
  refine ⟨?_, ?_, ?_, ?_⟩
  · intro hperm hrole
    have hne : d.isEmpty = false := isEmpty_false_of_dget d _ _ hperm
    constructor
    · simp [has_permission, hbu, get_user_permissions, hget, hne, dgetD,
        hperm, hrole, pyInAll, jvEqStr]
    · simpa [has_permission, hbu, get_user_permissions, hget, hne, dgetD,
        hperm, pyInAll, jvEqStr] using hrole
  · intro a p ha hrole
    have hba : (a == "") = false := beq_eq_false_iff_ne.mpr ha
    by_cases hne : d.isEmpty = true
    · have hd : d = [] := List.isEmpty_iff.mp hne
      rw [hd] at hrole
      simp [dgetD, dget, aget, jvEqStr] at hrole
    · have hne' : d.isEmpty = false := Bool.not_eq_true _ ▸ hne
      simp [has_permission, hbu, hba, get_user_permissions, hget, hne', hrole]
  · intro a p ps ha hperm hall
    have hba : (a == "") = false := beq_eq_false_iff_ne.mpr ha
    have hne : d.isEmpty = false := isEmpty_false_of_dget d _ _ hperm
    by_cases hrole : jvEqStr (dgetD d "role" (.jstr "user")) "admin" = true <;>
      simp [has_permission, hbu, hba, get_user_permissions, hget, hne, dgetD,
        hperm, pyInAll, hall, hrole]
  · intro a p ps ha hperm hmem
    have hba : (a == "") = false := beq_eq_false_iff_ne.mpr ha
    have hne : d.isEmpty = false := isEmpty_false_of_dget d _ _ hperm
    by_cases hrole : jvEqStr (dgetD d "role" (.jstr "user")) "admin" = true <;>
      by_cases hall : ps.any (fun x => jvEqStr x "all") = true <;>
        simp [has_permission, hbu, hba, get_user_permissions, hget, hne, dgetD,
          hperm, pyInAll, hall, hrole, hmem]

/-- C1 witness: the amended theorem applied to concrete users — a regular
user with permissions `["scm:chat"]`, an admin, a user with
`["all"]`, and a user with the global permission `["chat"]`. -/
theorem c1_permission_evaluation_witness :
    (has_permission [("alice.json", .ok [("permissions", .jlist [.jstr "scm:chat"]),
        ("role", .jstr "user")])] "alice" "scm" "chat" = true ∧
      has_permission [("alice.json", .ok [("permissions", .jlist [.jstr "scm:chat"]),
        ("role", .jstr "user")])] "alice" "it" "chat" = false) ∧
    has_permission [("root.json", .ok [("role", .jstr "admin")])] "root" "scm" "upload" = true ∧
    has_permission [("bob.json", .ok [("permissions", .jlist [.jstr "all"]),
      ("role", .jstr "user")])] "bob" "it" "delete" = true ∧
    has_permission [("carol.json", .ok [("permissions", .jlist [.jstr "chat"]),
      ("role", .jstr "user")])] "carol" "hr" "chat" = true :=
  ⟨(c1_permission_evaluation [("alice.json", .ok [("permissions",
        .jlist [.jstr "scm:chat"]), ("role", .jstr "user")])] "alice"
      [("permissions", .jlist [.jstr "scm:chat"]), ("role", .jstr "user")]
      (by decide) rfl).1 rfl rfl,
   (c1_permission_evaluation [("root.json", .ok [("role", .jstr "admin")])] "root"
      [("role", .jstr "admin")] (by decide) rfl).2.1 "scm" "upload" (by decide) rfl,
   (c1_permission_evaluation [("bob.json", .ok [("permissions", .jlist [.jstr "all"]),
        ("role", .jstr "user")])] "bob"
      [("permissions", .jlist [.jstr "all"]), ("role", .jstr "user")]
      (by decide) rfl).2.2.1 "it" "delete" [.jstr "all"] (by decide) rfl (by decide),
   (c1_permission_evaluation [("carol.json", .ok [("permissions", .jlist [.jstr "chat"]),
        ("role", .jstr "user")])] "carol"
      [("permissions", .jlist [.jstr "chat"]), ("role", .jstr "user")]
      (by decide) rfl).2.2.2 "hr" "chat" [.jstr "chat"] (by decide) rfl (by decide)⟩

/-! ## Claim C9 -/

/-- C9: `get_active_agents` filters `get_all_agents` by the permissive
predicate "status equals `active`, OR `enabled` is truthy (defaulting to
`True` when absent), OR there is no `status` key at all" — not strictly by
`status == 'active'`; in particular an agent whose status is `"inactive"`
with no `enabled` key is still included. -/
theorem c9_get_active_agents (s : BStore) :
    (∀ p : String × Dict, p ∈ get_active_agents s ↔
      p ∈ get_all_agents s ∧
      ((match dget p.2 "status" with
        | some v => jvEqStr v "active"
        | none => false) = true ∨
       truthy (dgetD p.2 "enabled" (.jbool true)) = true ∨
       dhas p.2 "status" = false)) ∧
    (∀ id cfg, (id, cfg) ∈ get_all_agents s →
      dget cfg "status" = some (.jstr "inactive") → dhas cfg "enabled" = false →
      (id, cfg) ∈ get_active_agents s) := by
  have hA : ∀ p : String × Dict, p ∈ get_active_agents s ↔
      p ∈ get_all_agents s ∧ isActiveCfg p.2 = true := by
    intro p
    exact List.mem_filter
  constructor
  · intro p
    rw [hA p]
    constructor
    · rintro ⟨h1, h2⟩
      refine ⟨h1, ?_⟩
      simpa [isActiveCfg, Bool.or_eq_true, Bool.not_eq_true', or_assoc] using h2
    · rintro ⟨h1, h2⟩
      refine ⟨h1, ?_⟩
      simpa [isActiveCfg, Bool.or_eq_true, Bool.not_eq_true', or_assoc] using h2
  · intro id cfg hmem hst hen
    rw [hA (id, cfg)]
    refine ⟨hmem, ?_⟩
    have hnone : dget cfg "enabled" = none := by
      rw [dhas] at hen
      exact Option.not_isSome_iff_eq_none.mp (by simp [hen])
    simp [isActiveCfg, dgetD, hnone, truthy]

/-- C9 witness: a store holding one agent with `status = "inactive"` and
no `enabled` key; the agent is nevertheless among the active agents. -/
theorem c9_get_active_agents_witness :
    ("a", [("status", JValue.jstr "inactive")]) ∈
      get_active_agents [("a.json", .ok [("status", .jstr "inactive")])] :=
  (c9_get_active_agents [("a.json", .ok [("status", .jstr "inactive")])]).2
    "a" [("status", JValue.jstr "inactive")] (List.Mem.head _) rfl rfl

/-! ## Claim C10 -/

/-- Helper for C10: every entry accumulated by the `get_all_users` loop
comes from a user blob that downloaded and parsed to a truthy dict, with
only the `password_hash` key removed. -/
theorem collectUsers_spec (s : BStore) (blobs : List (String × BlobVal))
    (acc : List (String × Dict))
    (hacc : ∀ u d, (u, d) ∈ acc →
      ∃ d0, get_user s u = some d0 ∧ d0.isEmpty = false ∧
        d = d0.filter (fun kv => kv.1 != "password_hash")) :
    ∀ u d, (u, d) ∈ collectUsers s blobs acc →
      ∃ d0, get_user s u = some d0 ∧ d0.isEmpty = false ∧
        d = d0.filter (fun kv => kv.1 != "password_hash") := by
  induction blobs generalizing acc with
  | nil =>
    intro u d h
    exact hacc u d h
  | cons hd tl ih =>
    obtain ⟨name, bv⟩ := hd
    intro u d h
    simp only [collectUsers] at h
    by_cases hsuf : (".json".data).isSuffixOf name.data
    · rw [if_pos hsuf] at h
      cases hget : get_user s (pyReplaceAll name ".json" "") with
      | none =>
        simp only [hget] at h
        exact ih acc hacc u d h
      | some d0 =>
        simp only [hget] at h
        cases hempty : d0.isEmpty with
        | true =>
          simp only [hempty, if_true] at h
          exact ih acc hacc u d h
        | false =>
          simp only [hempty, Bool.false_eq_true, if_false] at h
          refine ih _ ?_ u d h
          intro u' d' h'
          rcases mem_aset _ _ _ _ h' with h'' | h''
          · exact hacc u' d' h''
          · obtain ⟨hu', hd'⟩ := Prod.mk.injEq .. ▸ h''
            subst hu'
            exact ⟨d0, hget, hempty, hd'⟩
    · rw [if_neg hsuf] at h
      exact ih acc hacc u d h

/-- C10: every user dict returned by `get_all_users` omits the
`password_hash` key while all other keys of the stored user blob pass
through unchanged (it equals the stored dict with exactly the
`password_hash` bindings filtered out); and a user whose blob fails to
download or parse is silently absent from the result. -/
theorem c10_get_all_users_password_hash (s : BStore) :
    (∀ u d, (u, d) ∈ get_all_users s →
      dhas d "password_hash" = false ∧
      ∃ d0, get_user s u = some d0 ∧ d0.isEmpty = false ∧
        d = d0.filter (fun kv => kv.1 != "password_hash")) ∧
    (∀ u, (aget s (u ++ ".json") = some .netError ∨
        aget s (u ++ ".json") = some .malformed) →
      ∀ d, (u, d) ∉ get_all_users s) := by
  have hmain := collectUsers_spec s s []
    (by intro u d h; exact absurd h (List.not_mem_nil _))
  constructor
  · intro u d h
    obtain ⟨d0, hg, hne, hd⟩ := hmain u d h
    refine ⟨?_, d0, hg, hne, hd⟩
    subst hd
    rw [dhas, dget, aget, List.find?_eq_none.mpr]
    · rfl
    · intro x hx hbeq
      have hne2 := (List.mem_filter.mp hx).2
      simp only [bne_iff_ne, ne_eq] at hne2
      exact hne2 (by simpa using hbeq)
  · intro u hbad d hmem
    obtain ⟨d0, hg, _, _⟩ := hmain u d hmem
    have hnone : get_user s u = none := by
      rcases hbad with h | h <;> simp [get_user, h]
    rw [hnone] at hg
    exact Option.noConfusion hg

/-- C10 witness: a store with one good user blob (containing a
`password_hash`) and one blob whose download raises; the returned dict
drops the hash and the failing user is absent. -/
theorem c10_get_all_users_witness :
    (dhas [("role", JValue.jstr "user")] "password_hash" = false ∧
      ∃ d0, get_user [("u.json", .ok [("password_hash", .jstr "h"),
          ("role", .jstr "user")]), ("v.json", .netError)] "u" = some d0 ∧
        d0.isEmpty = false ∧
        [("role", JValue.jstr "user")] =
          d0.filter (fun kv => kv.1 != "password_hash")) ∧
    ("v", ([] : Dict)) ∉ get_all_users [("u.json", .ok [("password_hash", .jstr "h"),
      ("role", .jstr "user")]), ("v.json", .netError)] :=
  ⟨(c10_get_all_users_password_hash [("u.json", .ok [("password_hash", .jstr "h"),
      ("role", .jstr "user")]), ("v.json", .netError)]).1 "u"
      [("role", JValue.jstr "user")] (List.Mem.head _),
   (c10_get_all_users_password_hash [("u.json", .ok [("password_hash", .jstr "h"),
      ("role", .jstr "user")]), ("v.json", .netError)]).2 "v" (Or.inl rfl) []⟩

/-! ## Claim C2 -/

/-- C2: `delete_document` deletes the blob first and only then runs the
three index-cleanup tiers; when the blob deletion succeeds and every tier
fails (returns falsy or raises), it still returns `True`, the blob stays
deleted and the search index is left untouched, so the document is gone
from blob storage but still present in the index. -/
theorem c2_delete_document_blob_first_no_rollback (blobs idx : List String)
    (file nm : String) (oc : DelOutcomes)
    (h1 : nm ≠ "") (h2 : pyStrip nm ≠ "")
    (hb : oc.blobOk = true)
    (ht1 : oc.t1 ≠ some true) (ht2 : oc.t2 ≠ some true) (ht3 : oc.t3 ≠ some true)
    (hidx : file ∈ idx) :
    (delete_document blobs idx file (some nm) oc).2.2.2 = true ∧
    file ∉ (delete_document blobs idx file (some nm) oc).1 ∧
    (delete_document blobs idx file (some nm) oc).2.1 = idx ∧
    file ∈ (delete_document blobs idx file (some nm) oc).2.1 ∧
    (delete_document blobs idx file (some nm) oc).2.2.1 =
      [.blobDelete, .tier1, .tier2, .tier3] := by
  refine ⟨?_, ?_, ?_, ?_, ?_⟩ <;>
    simp [delete_document, standard_index_deletion, tierApply,
      h1, h2, hb, ht1, ht2, ht3, List.mem_filter, hidx]

/-- C2 witness: the theorem applied at a concrete store where the blob
exists, the index holds the document, and every cleanup tier fails. -/
theorem c2_delete_document_witness :
    (delete_document ["doc.pdf"] ["doc.pdf"] "doc.pdf" (some "idx")
        ⟨true, some false, none, some false⟩).2.2.2 = true ∧
    "doc.pdf" ∉ (delete_document ["doc.pdf"] ["doc.pdf"] "doc.pdf" (some "idx")
        ⟨true, some false, none, some false⟩).1 ∧
    (delete_document ["doc.pdf"] ["doc.pdf"] "doc.pdf" (some "idx")
        ⟨true, some false, none, some false⟩).2.1 = ["doc.pdf"] ∧
    "doc.pdf" ∈ (delete_document ["doc.pdf"] ["doc.pdf"] "doc.pdf" (some "idx")
        ⟨true, some false, none, some false⟩).2.1 ∧
    (delete_document ["doc.pdf"] ["doc.pdf"] "doc.pdf" (some "idx")
        ⟨true, some false, none, some false⟩).2.2.1 =
      [.blobDelete, .tier1, .tier2, .tier3] :=
  c2_delete_document_blob_first_no_rollback ["doc.pdf"] ["doc.pdf"] "doc.pdf"
    "idx" ⟨true, some false, none, some false⟩ (by decide) (by decide) rfl
    (by decide) (by decide) (by decide) (by decide)

/-! ## Claim C3 -/

/-- C3 counterexample: when all three attempts raise `AzureError`, the
sleeps actually performed are 1s and 2s only; there is no 4s sleep after
the third failed attempt (the loop returns the error string instead), so
the claimed backoff schedule 1s, 2s, 4s is wrong. -/
theorem c3_backoff_counterexample :
    (send_message_and_get_response (fun _ => .azure "x")).sleeps = [1, 2] ∧
    (send_message_and_get_response (fun _ => .azure "x")).sleeps ≠ [1, 2, 4] := by
  constructor
  · rfl
  · decide

/-- C3 (amended): `send_message_and_get_response` makes up to 3 attempts,
retries only on `AzureError`, sleeps 1s after the first failed attempt and
2s after the second, and after a third `AzureError` returns the connection
error string without sleeping again; a non-`AzureError` exception is never
retried and yields the generic error string. -/
theorem c3_retry_only_azure_with_backoff (att : Nat → Attempt) :
    (∀ r, att 0 = .ok r →
      send_message_and_get_response att = ⟨r, [], 1⟩) ∧
    (∀ e, att 0 = .other e →
      send_message_and_get_response att = ⟨"AI Agent genel hatası: " ++ e, [], 1⟩) ∧
    (∀ e0 r, att 0 = .azure e0 → att 1 = .ok r →
      send_message_and_get_response att = ⟨r, [1], 2⟩) ∧
    (∀ e0 e, att 0 = .azure e0 → att 1 = .other e →
      send_message_and_get_response att = ⟨"AI Agent genel hatası: " ++ e, [1], 2⟩) ∧
    (∀ e0 e1 r, att 0 = .azure e0 → att 1 = .azure e1 → att 2 = .ok r →
      send_message_and_get_response att = ⟨r, [1, 2], 3⟩) ∧
    (∀ e0 e1 e, att 0 = .azure e0 → att 1 = .azure e1 → att 2 = .other e →
      send_message_and_get_response att = ⟨"AI Agent genel hatası: " ++ e, [1, 2], 3⟩) ∧
    (∀ e0 e1 e2, att 0 = .azure e0 → att 1 = .azure e1 → att 2 = .azure e2 →
      send_message_and_get_response att = ⟨"AI Agent bağlantı hatası: " ++ e2, [1, 2], 3⟩) := by
  refine ⟨fun r h0 => ?_, fun e h0 => ?_, fun e0 r h0 h1 => ?_,
    fun e0 e h0 h1 => ?_, fun e0 e1 r h0 h1 h2 => ?_,
    fun e0 e1 e h0 h1 h2 => ?_, fun e0 e1 e2 h0 h1 h2 => ?_⟩ <;>
    simp [send_message_and_get_response, sendLoopAux, *]

/-- C3 witness: the amended theorem applied to a run in which every
attempt raises an `AzureError`. -/
theorem c3_retry_witness :
    send_message_and_get_response (fun _ => .azure "x") =
      ⟨"AI Agent bağlantı hatası: " ++ "x", [1, 2], 3⟩ :=
  (c3_retry_only_azure_with_backoff (fun _ => .azure "x")).2.2.2.2.2.2
    "x" "x" "x" rfl rfl rfl

/-! ## Claim C5 -/

/-- C5: with a non-empty file mapping whose first filename is
`Report.pdf`, the citation post-processing rewrites
`"See [0:source] for details"` to the document-reference span with
`📄 Report.pdf`; with an empty mapping the same input falls back to a span
containing `Kaynak Dosya 1`. -/
theorem c5_citation_rewrite :
    (∀ rest : List String,
      process_document_references ("Report.pdf" :: rest) "See [0:source] for details" =
        "See <span class=\"document-reference\">📄 Report.pdf</span> for details") ∧
    process_document_references [] "See [0:source] for details" =
      "See <span class=\"document-reference\">📄 Kaynak Dosya 1</span> for details" := by
  constructor
  · intro rest
    have h0 : get_filename_by_index ("Report.pdf" :: rest) (Int.ofNat 0) =
        spanRef "📄 Report.pdf" := by
      unfold get_filename_by_index
      rw [if_pos]
      · rfl
      · refine ⟨le_refl _, ?_⟩
        rw [List.length_cons]
        exact Int.ofNat_lt.mpr (Nat.succ_pos _)
    have hs1 : reSub (tryNumSource (fun n _ =>
          get_filename_by_index ("Report.pdf" :: rest) (Int.ofNat n)))
        (("See [0:source] for details".data).length)
        ("See [0:source] for details".data) =
        "See ".data ++
          (get_filename_by_index ("Report.pdf" :: rest) (Int.ofNat 0)).data ++
          " for details".data := rfl
    simp only [process_document_references, List.isEmpty_cons, Bool.not_false,
      if_true]
    rw [hs1, h0]
    rfl
  · rfl

/-! ## Span-scanner lemmas for Claim C6 -/

end Egent
